import Mathlib

/-!
Verification of the interleaver test harness
(`host/libraries/libbladeRF_test/test_interleaver/src/main.c`).

Memory is modelled byte-addressed: a buffer is a function from byte index to
byte value (each read is taken `% 256`).  Multi-byte accesses are
little-endian, matching the pointer casts in the source (`uint16_t *` writes
in `create_buf`, `uint32_t *` reads in `check_buf`).  A nullable buffer
pointer is an `Option`; a failing `malloc` is modelled by the `allocOk`
flag.  `check_buf` additionally returns the list of comparisons the loop
performed, one entry `(sample index, expected word, actual word)` per
iteration; the source logs exactly these via `PRINT_ERROR`/`PRINT_VERBOSE`.
-/

namespace Interleaver

/-- Little-endian 16-bit read at byte offset `off`. -/
def read16 (mem : Nat → Nat) (off : Nat) : Nat :=
  mem off % 256 + mem (off + 1) % 256 * 256

/-- Little-endian 32-bit read at byte offset `off`, as done by
`*((uint32_t *)buf + i)` in `check_buf`. -/
def read32 (mem : Nat → Nat) (off : Nat) : Nat :=
  mem off % 256 + mem (off + 1) % 256 * 256 + mem (off + 2) % 256 * 65536 +
    mem (off + 3) % 256 * 16777216

/-- Little-endian 16-bit store at byte offset `off`, as done by
`*((uint16_t *)retbuf + i) = v` in `create_buf`. -/
def write16 (mem : Nat → Nat) (off v : Nat) : Nat → Nat :=
  fun b => if b = off then v % 256 else if b = off + 1 then v / 256 % 256 else mem b

/-- The fill loop of `create_buf`: for every `i < n` store the 16-bit word
`i % 65536` at word index `i` (byte offset `2*i`). -/
def fill_words (mem : Nat → Nat) : Nat → (Nat → Nat)
  | 0 => mem
  | n + 1 => write16 (fill_words mem n) (2 * n) (n % 65536)

/-- Function `create_buf` from main.c: allocate `buflen` bytes and fill them with the
counting pattern.  `junk` is the arbitrary content malloc hands back and
`allocOk` models whether malloc succeeds (the source returns NULL and makes
no write when it does not). -/
def create_buf (junk : Nat → Nat) (allocOk : Bool) (buflen : Nat) :
    Option (Nat → Nat) :=
  if allocOk then some (fill_words junk (buflen / 2)) else none

/-- The `for (i = 0; i < n; i += stride)` loop of `check_buf`.  `read i` is
the 32-bit word at sample index `i`; `count` is the running 16-bit count
(the source keeps it in a `uint16_t` and re-reduces it `% 65536`).  The
first component is `retval` (true iff no comparison failed); the second is
the list of comparisons performed, in order.  `fuel` bounds the number of
iterations; the callers below pass `n`, which is enough whenever
`stride ≥ 1`. -/
def check_loop (read : Nat → Nat) (n stride : Nat) :
    Nat → Nat → Nat → Bool × List (Nat × Nat × Nat)
  | 0, _, _ => (true, [])
  | fuel + 1, i, count =>
    if i < n then
      ((count % 65536 + (count + 1) % 65536 * 65536 == read i) &&
         (check_loop read n stride fuel (i + stride) ((count + 2) % 65536)).1,
       (i, count % 65536 + (count + 1) % 65536 * 65536, read i) ::
         (check_loop read n stride fuel (i + stride) ((count + 2) % 65536)).2)
    else (true, [])

/-- Function `check_buf` from main.c, together with the list of comparisons it
performed.  A `none` buffer is the NULL pointer: the source returns false
at once without reading any sample. -/
def check_buf_run (buf : Option (Nat → Nat)) (buflen samplesize stride count : Nat) :
    Bool × List (Nat × Nat × Nat) :=
  match buf with
  | none => (false, [])
  | some mem =>
    check_loop (fun i => read32 mem (4 * i)) (buflen / samplesize) stride
      (buflen / samplesize) 0 count

/-- The boolean result of `check_buf`. -/
def check_buf (buf : Option (Nat → Nat)) (buflen samplesize stride count : Nat) :
    Bool :=
  (check_buf_run buf buflen samplesize stride count).1

/-- The mismatches `check_buf` records (the comparisons whose expected and
actual 32-bit words differ; the source prints each via `PRINT_ERROR`). -/
def check_buf_mismatches (buf : Option (Nat → Nat))
    (buflen samplesize stride count : Nat) : List (Nat × Nat × Nat) :=
  (check_buf_run buf buflen samplesize stride count).2.filter
    fun e => !(e.2.1 == e.2.2)

/-- Expected 32-bit word for the `k`-th inspected sample when the running
count started at `c`: low half `(c + 2k) % 65536`, high half
`(c + 2k + 1) % 65536`. -/
def expWord (c k : Nat) : Nat :=
  (c + 2 * k) % 65536 + (c + 2 * k + 1) % 65536 * 65536

/-- Number of loop iterations of `check_buf` starting from sample index `i`:
the number of multiples `i, i+stride, …` that are below `n`. -/
def iterCnt (n stride i : Nat) : Nat := (n - i + stride - 1) / stride

/-- Number of samples `check_buf` inspects overall: indices
`0, stride, 2*stride, …` below `n`. -/
def numInspected (n stride : Nat) : Nat := (n + stride - 1) / stride

theorem iterCnt_step (n stride i : Nat) (hs : 1 ≤ stride) (hi : i < n) :
    iterCnt n stride i = iterCnt n stride (i + stride) + 1 := by
  unfold iterCnt
  rcases le_or_lt (n - i) stride with h | h
  · have h0 : n - (i + stride) = 0 := by omega
    rw [h0]
    have h1 : (0 + stride - 1) / stride = 0 := Nat.div_eq_of_lt (by omega)
    rw [h1]
    have h2 : n - i + stride - 1 = (n - i - 1) + stride := by omega
    rw [h2, Nat.add_div_right _ hs]
    have h3 : (n - i - 1) / stride = 0 := Nat.div_eq_of_lt (by omega)
    omega
  · have h2 : n - i + stride - 1 = (n - (i + stride) + stride - 1) + stride := by
      omega
    rw [h2, Nat.add_div_right _ hs]

theorem iterCnt_zero (n stride i : Nat) (hs : 1 ≤ stride) (hi : ¬ i < n) :
    iterCnt n stride i = 0 := by
  unfold iterCnt
  exact Nat.div_eq_of_lt (by omega)

theorem expWord_shift (c k : Nat) : expWord c (k + 1) = expWord ((c + 2) % 65536) k := by
  unfold expWord
  omega

/-- The trace of `check_buf`'s loop: one comparison per inspected sample,
inspecting `i, i + stride, …` with the expected words advancing two counts
per sample. -/
theorem check_loop_snd (read : Nat → Nat) (n stride : Nat) (hs : 1 ≤ stride) :
    ∀ fuel i c, n - i ≤ fuel →
      (check_loop read n stride fuel i c).2 =
        (List.range (iterCnt n stride i)).map
          (fun k => (i + k * stride, expWord c k, read (i + k * stride)))
  | 0, i, c, hf => by
    have hin : ¬ i < n := by omega
    rw [iterCnt_zero n stride i hs hin]
    simp [check_loop]
  | fuel + 1, i, c, hf => by
    by_cases hin : i < n
    · have IH := check_loop_snd read n stride hs fuel (i + stride)
        ((c + 2) % 65536) (by omega)
      rw [iterCnt_step n stride i hs hin]
      simp only [check_loop, if_pos hin, IH, List.range_succ_eq_map,
        List.map_cons, List.map_map]
      congr 1
      · unfold expWord
        simp
      · apply List.map_congr_left
        intro k _
        simp only [Function.comp_apply, Nat.succ_eq_add_one]
        rw [expWord_shift c k]
        have h1 : i + (k + 1) * stride = i + stride + k * stride := by ring
        rw [h1]
    · rw [iterCnt_zero n stride i hs hin]
      simp [check_loop, hin]

/-- The `retval` of `check_buf`'s loop is true exactly when every comparison in
its trace matched. -/
theorem check_loop_fst (read : Nat → Nat) (n stride : Nat) :
    ∀ fuel i c,
      (check_loop read n stride fuel i c).1 =
        (check_loop read n stride fuel i c).2.all fun e => e.2.1 == e.2.2
  | 0, i, c => by simp [check_loop]
  | fuel + 1, i, c => by
    by_cases hin : i < n
    · simp only [check_loop, if_pos hin, List.all_cons]
      rw [check_loop_fst read n stride fuel]
    · simp [check_loop, hin]

/-- Trace of `check_buf` on a non-null buffer, in closed form. -/
theorem check_buf_run_snd (mem : Nat → Nat) (buflen samplesize stride c : Nat)
    (hs : 1 ≤ stride) :
    (check_buf_run (some mem) buflen samplesize stride c).2 =
      (List.range (numInspected (buflen / samplesize) stride)).map
        (fun k => (k * stride, expWord c k, read32 mem (4 * (k * stride)))) := by
  unfold check_buf_run
  rw [check_loop_snd (fun i => read32 mem (4 * i)) (buflen / samplesize) stride hs
        (buflen / samplesize) 0 c (Nat.sub_le _ _)]
  have h0 : iterCnt (buflen / samplesize) stride 0 =
      numInspected (buflen / samplesize) stride := by
    unfold iterCnt numInspected
    simp
  rw [h0]
  apply List.map_congr_left
  intro k _
  simp

/-- The boolean result of `check_buf` on a non-null buffer is the conjunction of
all comparisons in its trace. -/
theorem check_buf_eq_all (mem : Nat → Nat) (buflen samplesize stride c : Nat) :
    check_buf (some mem) buflen samplesize stride c =
      (check_buf_run (some mem) buflen samplesize stride c).2.all
        fun e => e.2.1 == e.2.2 := by
  unfold check_buf check_buf_run
  exact check_loop_fst _ _ _ _ _ _

theorem read16_write16_same (mem : Nat → Nat) (off v : Nat) :
    read16 (write16 mem off v) off = v % 65536 := by
  unfold read16 write16
  rw [if_pos rfl, if_neg (by omega), if_pos rfl]
  omega

theorem read16_write16_other (mem : Nat → Nat) (off v b : Nat)
    (h : b + 1 < off ∨ off + 1 < b) :
    read16 (write16 mem off v) b = read16 mem b := by
  unfold read16 write16
  rw [if_neg (by omega), if_neg (by omega), if_neg (by omega), if_neg (by omega)]

theorem write16_untouched (mem : Nat → Nat) (off v b : Nat)
    (h : b ≠ off ∧ b ≠ off + 1) :
    write16 mem off v b = mem b := by
  unfold write16
  rw [if_neg h.1, if_neg h.2]

/-- Every word the fill loop of `create_buf` wrote reads back as its index
mod 65536. -/
theorem fill_words_read (junk : Nat → Nat) :
    ∀ n i, i < n → read16 (fill_words junk n) (2 * i) = i % 65536
  | 0, i, hi => absurd hi (Nat.not_lt_zero i)
  | n + 1, i, hi => by
    unfold fill_words
    by_cases hin : i = n
    · subst hin
      rw [read16_write16_same]
      omega
    · rw [read16_write16_other _ _ _ _ (by omega)]
      exact fill_words_read junk n i (by omega)

/-- The fill loop of `create_buf` touches no byte at or beyond `2 * n`. -/
theorem fill_words_frame (junk : Nat → Nat) :
    ∀ n b, 2 * n ≤ b → fill_words junk n b = junk b
  | 0, b, _ => rfl
  | n + 1, b, hb => by
    unfold fill_words
    rw [write16_untouched _ _ _ _ (by omega)]
    exact fill_words_frame junk n b (by omega)

/-- Claim C3: for every even `buflen`, `create_buf` either fails when the
allocation fails (returns no buffer), or returns a buffer whose 16-bit word
at index `i` equals `i % 65536` for every `i < buflen / 2`, touching no byte
outside the allocation. -/
theorem create_buf_pattern (junk : Nat → Nat) (buflen : Nat)
    (h2 : buflen % 2 = 0) :
    create_buf junk false buflen = none ∧
    ∀ mem, create_buf junk true buflen = some mem →
      (∀ i, i < buflen / 2 → read16 mem (2 * i) = i % 65536) ∧
      (∀ b, buflen ≤ b → mem b = junk b) := by
  refine ⟨rfl, ?_⟩
  intro mem hmem
  unfold create_buf at hmem
  rw [if_pos rfl] at hmem
  rw [Option.some_inj] at hmem
  subst hmem
  refine ⟨fun i hi => fill_words_read junk _ i hi, fun b hb => ?_⟩
  exact fill_words_frame junk _ b (by omega)

theorem create_buf_pattern_witness :
    6 % 2 = 0 ∧
      (create_buf (fun _ => 7) false 6 = none ∧
        ∀ mem, create_buf (fun _ => 7) true 6 = some mem →
          (∀ i, i < 6 / 2 → read16 mem (2 * i) = i % 65536) ∧
          (∀ b, 6 ≤ b → mem b = (fun _ => 7) b)) :=
  ⟨by decide, create_buf_pattern (fun _ => 7) 6 (by decide)⟩

/-- Claim C1: for every non-null buffer, length, sample width, stride
`d ≥ 1` and starting count `c`, `check_buf` inspects exactly the samples at
indices `0, d, 2d, …` below `buflen / samplesize`, and compares the 32-bit
word read at the `k`-th inspected sample against the expected value whose
low 16 bits are `(c + 2k) % 65536` and whose high 16 bits are
`(c + 2k + 1) % 65536`. -/
theorem check_buf_inspects_expected (mem : Nat → Nat)
    (buflen samplesize stride c : Nat) (hs : 1 ≤ stride) :
    (check_buf_run (some mem) buflen samplesize stride c).2 =
      (List.range (numInspected (buflen / samplesize) stride)).map
        (fun k => (k * stride,
          (c + 2 * k) % 65536 + (c + 2 * k + 1) % 65536 * 65536,
          read32 mem (4 * (k * stride)))) :=
  check_buf_run_snd mem buflen samplesize stride c hs

theorem check_buf_inspects_expected_witness :
    1 ≤ 2 ∧
      (check_buf_run (some (fun b => b % 256)) 12 4 2 65535).2 =
        (List.range (numInspected (12 / 4) 2)).map
          (fun k => (k * 2,
            (65535 + 2 * k) % 65536 + (65535 + 2 * k + 1) % 65536 * 65536,
            read32 (fun b => b % 256) (4 * (k * 2)))) :=
  ⟨by decide, check_buf_inspects_expected (fun b => b % 256) 12 4 2 65535 (by decide)⟩

/-- Claim C4: a mismatch does not stop the scan of `check_buf`: the scan
compares every inspected sample (the trace has one entry per inspected
index), every mismatching comparison is recorded in the mismatch list, and
`check_buf` returns success exactly when the mismatch list is empty. -/
theorem check_buf_full_scan (mem : Nat → Nat) (buflen samplesize stride c : Nat)
    (hs : 1 ≤ stride) :
    (check_buf_run (some mem) buflen samplesize stride c).2.length =
        numInspected (buflen / samplesize) stride ∧
    (∀ e ∈ (check_buf_run (some mem) buflen samplesize stride c).2,
        e.2.1 ≠ e.2.2 →
          e ∈ check_buf_mismatches (some mem) buflen samplesize stride c) ∧
    (check_buf (some mem) buflen samplesize stride c = true ↔
        check_buf_mismatches (some mem) buflen samplesize stride c = []) := by
  refine ⟨?_, ?_, ?_⟩
  · rw [check_buf_run_snd mem buflen samplesize stride c hs]
    simp
  · intro e he hne
    unfold check_buf_mismatches
    rw [List.mem_filter]
    refine ⟨he, ?_⟩
    simpa using hne
  · rw [check_buf_eq_all mem buflen samplesize stride c]
    unfold check_buf_mismatches
    rw [List.all_eq_true, List.filter_eq_nil_iff]
    constructor
    · intro h e he
      have := h e he
      simpa using this
    · intro h e he
      have := h e he
      simpa using this

theorem check_buf_full_scan_witness :
    1 ≤ 3 ∧
      ((check_buf_run (some (fun b => b + 1)) 20 4 3 2).2.length =
          numInspected (20 / 4) 3 ∧
        (∀ e ∈ (check_buf_run (some (fun b => b + 1)) 20 4 3 2).2,
            e.2.1 ≠ e.2.2 →
              e ∈ check_buf_mismatches (some (fun b => b + 1)) 20 4 3 2) ∧
        (check_buf (some (fun b => b + 1)) 20 4 3 2 = true ↔
            check_buf_mismatches (some (fun b => b + 1)) 20 4 3 2 = [])) :=
  ⟨by decide, check_buf_full_scan (fun b => b + 1) 20 4 3 2 (by decide)⟩

theorem read32_split (mem : Nat → Nat) (off : Nat) :
    read32 mem off = read16 mem off + read16 mem (off + 2) * 65536 := by
  unfold read32 read16
  have h : off + 2 + 1 = off + 3 := by omega
  rw [h]
  ring

theorem filter_range_eq_single (p : Nat → Bool) :
    ∀ n m, m < n → p m = true → (∀ k, k < n → k ≠ m → p k = false) →
      (List.range n).filter p = [m]
  | 0, m, hm, _, _ => absurd hm (Nat.not_lt_zero m)
  | n + 1, m, hm, hpm, hp => by
    rw [List.range_succ, List.filter_append]
    by_cases hmn : m = n
    · subst hmn
      have h1 : (List.range m).filter p = [] := by
        rw [List.filter_eq_nil_iff]
        intro a ha
        rw [List.mem_range] at ha
        simp [hp a (by omega) (by omega)]
      rw [h1]
      simp [hpm]
    · have h1 : (List.range n).filter p = [m] :=
        filter_range_eq_single p n m (by omega) hpm
          (fun k hk hkm => hp k (by omega) hkm)
      rw [h1]
      have h2 : p n = false := hp n (by omega) (fun h => hmn h.symm)
      simp [h2]

/-- Reading a 32-bit sample of the corrupted pattern buffer away from the
corrupted word still yields the expected counting value. -/
theorem corrupt_read_other (junk : Nat → Nat) (buflen j v k : Nat)
    (h4 : buflen % 4 = 0) (hk : k < buflen / 4) (hkj : k ≠ j / 2) :
    read32 (write16 (fill_words junk (buflen / 2)) (2 * j) v) (4 * k) =
      2 * k % 65536 + (2 * k + 1) % 65536 * 65536 := by
  have hj2k : j ≠ 2 * k := by omega
  have hj2k1 : j ≠ 2 * k + 1 := by omega
  rw [read32_split]
  rw [read16_write16_other _ _ _ _ (by omega),
      read16_write16_other _ _ _ _ (by omega)]
  rw [show 4 * k = 2 * (2 * k) by ring,
      show 2 * (2 * k) + 2 = 2 * (2 * k + 1) by ring]
  rw [fill_words_read junk _ (2 * k) (by omega),
      fill_words_read junk _ (2 * k + 1) (by omega)]

/-- Reading the 32-bit sample that contains the corrupted word yields a
value different from the expected counting value. -/
theorem corrupt_read_at (junk : Nat → Nat) (buflen j v : Nat)
    (h4 : buflen % 4 = 0) (hj : j < buflen / 2) (hv : v % 65536 ≠ j % 65536) :
    read32 (write16 (fill_words junk (buflen / 2)) (2 * j) v) (4 * (j / 2)) ≠
      2 * (j / 2) % 65536 + (2 * (j / 2) + 1) % 65536 * 65536 := by
  rw [read32_split]
  by_cases hpar : j % 2 = 0
  · have hja : 4 * (j / 2) = 2 * j := by omega
    have hjb : 2 * j + 2 = 2 * (j + 1) := by omega
    rw [hja, hjb, read16_write16_same,
        read16_write16_other _ _ _ _ (by omega),
        fill_words_read junk _ (j + 1) (by omega)]
    have h1 : 2 * (j / 2) = j := by omega
    rw [h1]
    omega
  · have hja : 4 * (j / 2) = 2 * (j - 1) := by omega
    have hjb : 2 * (j - 1) + 2 = 2 * j := by omega
    rw [hja, hjb, read16_write16_same,
        read16_write16_other _ _ _ _ (by omega),
        fill_words_read junk _ (j - 1) (by omega)]
    have h1 : 2 * (j / 2) = j - 1 := by omega
    rw [h1]
    omega

/-- Claim C5: corrupting exactly one 16-bit word (index `j`, new stored
value different from the original `j % 65536`) of a buffer produced by
`create_buf`, and then running the stride-1 `check_buf` scan of the whole
buffer with start count 0 (sample width 4, so the whole buffer means
`4 ∣ buflen`), reports exactly one mismatch, located at the 32-bit sample
`j / 2` containing the corrupted word, carrying the correct expected value
and the actual corrupted value, and returns failure. -/
theorem single_corruption_single_mismatch (junk : Nat → Nat) (buflen j v : Nat)
    (h4 : buflen % 4 = 0) (hj : j < buflen / 2) (hv : v % 65536 ≠ j % 65536) :
    check_buf_mismatches
        (some (write16 (fill_words junk (buflen / 2)) (2 * j) v)) buflen 4 1 0 =
      [(j / 2, 2 * (j / 2) % 65536 + (2 * (j / 2) + 1) % 65536 * 65536,
        read32 (write16 (fill_words junk (buflen / 2)) (2 * j) v) (4 * (j / 2)))] ∧
    check_buf (some (write16 (fill_words junk (buflen / 2)) (2 * j) v))
        buflen 4 1 0 = false := by
  have hn1 : numInspected (buflen / 4) 1 = buflen / 4 := by
    unfold numInspected
    simp
  have hrun := check_buf_run_snd
    (write16 (fill_words junk (buflen / 2)) (2 * j) v) buflen 4 1 0 (le_refl 1)
  rw [hn1] at hrun
  have hjn : j / 2 < buflen / 4 := by omega
  have hgood : ∀ k, k < buflen / 4 → k ≠ j / 2 →
      read32 (write16 (fill_words junk (buflen / 2)) (2 * j) v) (4 * (k * 1)) =
        expWord 0 k := by
    intro k hk hkj
    rw [Nat.mul_one]
    rw [corrupt_read_other junk buflen j v k h4 hk hkj]
    unfold expWord
    omega
  have hbad : read32 (write16 (fill_words junk (buflen / 2)) (2 * j) v)
      (4 * (j / 2 * 1)) ≠ expWord 0 (j / 2) := by
    rw [Nat.mul_one]
    have := corrupt_read_at junk buflen j v h4 hj hv
    unfold expWord
    omega
  constructor
  · unfold check_buf_mismatches
    rw [hrun, List.filter_map]
    rw [filter_range_eq_single _ (buflen / 4) (j / 2) hjn ?_ ?_]
    · simp only [List.map_cons, List.map_nil, Nat.mul_one]
      unfold expWord
      simp
    · simp only [Function.comp_apply, Bool.not_eq_eq_eq_not, Bool.not_true,
        beq_eq_false_iff_ne, ne_eq]
      exact fun h => hbad h.symm
    · intro k hk hkj
      simp only [Function.comp_apply, Bool.not_eq_eq_eq_not, Bool.not_false]
      rw [beq_iff_eq]
      exact (hgood k hk hkj).symm
  · rw [check_buf_eq_all, hrun]
    by_contra hb
    rw [Bool.not_eq_false] at hb
    have hmem : (j / 2 * 1, expWord 0 (j / 2),
        read32 (write16 (fill_words junk (buflen / 2)) (2 * j) v)
          (4 * (j / 2 * 1))) ∈
        (List.range (buflen / 4)).map
          (fun k => (k * 1, expWord 0 k,
            read32 (write16 (fill_words junk (buflen / 2)) (2 * j) v)
              (4 * (k * 1)))) :=
      List.mem_map_of_mem _ (List.mem_range.mpr hjn)
    have := List.all_eq_true.mp hb _ hmem
    rw [beq_iff_eq] at this
    exact hbad this.symm

theorem single_corruption_single_mismatch_witness :
    (8 % 4 = 0 ∧ 1 < 8 / 2 ∧ 5 % 65536 ≠ 1 % 65536) ∧
      (check_buf_mismatches
          (some (write16 (fill_words (fun _ => 0) (8 / 2)) (2 * 1) 5)) 8 4 1 0 =
        [(1 / 2, 2 * (1 / 2) % 65536 + (2 * (1 / 2) + 1) % 65536 * 65536,
          read32 (write16 (fill_words (fun _ => 0) (8 / 2)) (2 * 1) 5)
            (4 * (1 / 2)))] ∧
      check_buf (some (write16 (fill_words (fun _ => 0) (8 / 2)) (2 * 1) 5))
          8 4 1 0 = false) :=
  ⟨by decide, single_corruption_single_mismatch (fun _ => 0) 8 1 5
    (by decide) (by decide) (by decide)⟩

/-- Claim C10: for every length, sample width, stride and start count, a
null buffer makes `check_buf` return failure without inspecting any
sample (its comparison trace is empty). -/
theorem null_buf_rejected (buflen samplesize stride count : Nat) :
    check_buf_run none buflen samplesize stride count = (false, []) :=
  rfl

/-! The orchestrator (`test` / `main` in main.c).  The format/layout size
queries and the interleave/deinterleave transforms live in the library
(`helpers/interleave.h`), outside this test program's sources; the size
queries are modelled from the spec, and the transforms are kept abstract as
a `Gateway` whose calls may return any status and mutate the buffer
arbitrarily.  Each run of `test` also produces the ordered list of
observable events (allocation, transform calls, verification calls with
their parameters, release), which the temporal claims are stated over. -/

inductive Format where
  | sc16q11
  | sc16q11meta
  deriving DecidableEq

inductive Layout where
  | rx1
  | tx1
  | rx2
  | tx2
  deriving DecidableEq

/-- Modelled from the spec: `_interleave_calc_bytes_per_sample` is a pure
size query giving the per-sample byte width of a format; both formats used
by the harness carry 4-byte samples. -/
def calc_bytes_per_sample : Format → Nat
  | .sc16q11 => 4
  | .sc16q11meta => 4

/-- Modelled from the spec: `_interleave_calc_metadata_bytes` is a pure size
query giving the metadata region byte count, 0 for formats without metadata
and a fixed positive value (16 bytes in the deployed library) otherwise. -/
def calc_metadata_bytes : Format → Nat
  | .sc16q11 => 0
  | .sc16q11meta => 16

/-- Modelled from the spec: `_interleave_calc_num_channels` is a pure size
query giving the channel count of a layout (single- or two-channel). -/
def calc_num_channels : Layout → Nat
  | .rx1 => 1
  | .tx1 => 1
  | .rx2 => 2
  | .tx2 => 2

/-- The external transform collaborator: each call returns a status and the
(in-place mutated) buffer. -/
structure Gateway where
  interleave : Layout → Format → Nat → (Nat → Nat) → Int × (Nat → Nat)
  deinterleave : Layout → Format → Nat → (Nat → Nat) → Int × (Nat → Nat)

/-- Observable events of one `test` run, in program order. -/
inductive Event where
  | allocEv (buflen : Nat) (ok : Bool)
  | interleaveEv (status : Int)
  | checkMeta (buflen samplesize stride count : Nat) (ok : Bool)
  | checkNoop (buflen samplesize stride count : Nat) (ok : Bool)
  | checkChan (i base buflen samplesize stride count : Nat) (ok : Bool)
  | deinterleaveEv (status : Int)
  | checkFinal (buflen samplesize stride count : Nat) (ok : Bool)
  | freeEv
  deriving DecidableEq

/-- Per-channel start value, exactly as computed in `test`:
`((offset + i * (buflen / num_chan)) / 2) % 65536`. -/
def startval (offset buflen num_chan i : Nat) : Nat :=
  ((offset + i * (buflen / num_chan)) / 2) % 65536

/-- The per-channel verification loop of `test`: channel `i` is checked at
base byte offset `offset + samplesize * i`, over `bytes - offset` bytes,
with stride `num_chan` and the per-channel start value; the first failing
channel aborts the loop.  `r` is the number of channels still to check. -/
def chan_loop (mem : Nat → Nat) (offset bytes samplesize num_chan : Nat) :
    Nat → Nat → Bool × List Event
  | _, 0 => (true, [])
  | i, r + 1 =>
    if check_buf (some fun b => mem (offset + samplesize * i + b))
        (bytes - offset) samplesize num_chan
        (startval offset (bytes - offset) num_chan i) then
      ((chan_loop mem offset bytes samplesize num_chan (i + 1) r).1,
        Event.checkChan i (offset + samplesize * i) (bytes - offset) samplesize
          num_chan (startval offset (bytes - offset) num_chan i) true ::
          (chan_loop mem offset bytes samplesize num_chan (i + 1) r).2)
    else
      (false,
        [Event.checkChan i (offset + samplesize * i) (bytes - offset) samplesize
          num_chan (startval offset (bytes - offset) num_chan i) false])

/-- Metadata-check event of `test` (present exactly when the format has a
metadata region, i.e. `0 < offset`). -/
def metaEvs (buf1 : Nat → Nat) (offset samplesize : Nat) : List Event :=
  if 0 < offset then
    [Event.checkMeta offset samplesize 1 0
      (check_buf (some buf1) offset samplesize 1 0)]
  else []

/-- Single-channel no-op-check event of `test` (present exactly when the
layout has one channel). -/
def noopEvs (buf1 : Nat → Nat) (bytes samplesize num_chan : Nat) : List Event :=
  if num_chan = 1 then
    [Event.checkNoop bytes samplesize 1 0
      (check_buf (some buf1) bytes samplesize 1 0)]
  else []

/-- Deinterleave call and final stride-1 check of `test`; on deinterleave
failure the remaining check is skipped and its status is returned. -/
def test_dein (gw : Gateway) (rxlay : Layout) (format : Format)
    (ns bytes samplesize : Nat) (pre : List Event) (buf1 : Nat → Nat) :
    Int × List Event :=
  if (gw.deinterleave rxlay format ns buf1).1 ≠ 0 then
    ((gw.deinterleave rxlay format ns buf1).1,
     pre ++ [Event.deinterleaveEv (gw.deinterleave rxlay format ns buf1).1,
       Event.freeEv])
  else
    ((if check_buf (some (gw.deinterleave rxlay format ns buf1).2)
          bytes samplesize 1 0 then 0 else -1),
     pre ++ [Event.deinterleaveEv (gw.deinterleave rxlay format ns buf1).1,
       Event.checkFinal bytes samplesize 1 0
         (check_buf (some (gw.deinterleave rxlay format ns buf1).2)
           bytes samplesize 1 0),
       Event.freeEv])

/-- Per-channel check stage of `test`; the first failing channel aborts. -/
def test_chan (gw : Gateway) (rxlay : Layout) (format : Format)
    (ns offset bytes samplesize num_chan : Nat) (pre : List Event)
    (buf1 : Nat → Nat) : Int × List Event :=
  if (chan_loop buf1 offset bytes samplesize num_chan 0 num_chan).1 = false then
    (-1, pre ++ (chan_loop buf1 offset bytes samplesize num_chan 0 num_chan).2 ++
      [Event.freeEv])
  else
    test_dein gw rxlay format ns bytes samplesize
      (pre ++ (chan_loop buf1 offset bytes samplesize num_chan 0 num_chan).2) buf1

/-- Single-channel no-op check stage of `test`. -/
def test_noop (gw : Gateway) (rxlay : Layout) (format : Format)
    (ns offset bytes samplesize num_chan : Nat) (pre : List Event)
    (buf1 : Nat → Nat) : Int × List Event :=
  if num_chan = 1 ∧ check_buf (some buf1) bytes samplesize 1 0 = false then
    (-1, pre ++ noopEvs buf1 bytes samplesize num_chan ++ [Event.freeEv])
  else
    test_chan gw rxlay format ns offset bytes samplesize num_chan
      (pre ++ noopEvs buf1 bytes samplesize num_chan) buf1

/-- Metadata check stage of `test`. -/
def test_meta (gw : Gateway) (rxlay : Layout) (format : Format)
    (ns offset bytes samplesize num_chan : Nat) (pre : List Event)
    (buf1 : Nat → Nat) : Int × List Event :=
  if 0 < offset ∧ check_buf (some buf1) offset samplesize 1 0 = false then
    (-1, pre ++ metaEvs buf1 offset samplesize ++ [Event.freeEv])
  else
    test_noop gw rxlay format ns offset bytes samplesize num_chan
      (pre ++ metaEvs buf1 offset samplesize) buf1

/-- One test case (`test` in main.c): validate, generate the pattern
buffer, interleave, check metadata (metadata formats), check the whole
buffer (single channel), check each channel's strided layout, deinterleave,
check the restored pattern, and free the buffer on every exit path past the
allocation. -/
def test (gw : Gateway) (junk : Nat → Nat) (allocOk : Bool)
    (rxlay txlay : Layout) (format : Format) (ns : Nat) : Int × List Event :=
  if calc_num_channels rxlay ≠ calc_num_channels txlay then (-1, [])
  else if calc_bytes_per_sample format * ns < calc_metadata_bytes format then
    (-1, [])
  else if calc_num_channels rxlay < 1 then (-1, [])
  else
    match create_buf junk allocOk (calc_bytes_per_sample format * ns) with
    | none => (-1, [Event.allocEv (calc_bytes_per_sample format * ns) false])
    | some buf =>
      if (gw.interleave txlay format ns buf).1 ≠ 0 then
        ((gw.interleave txlay format ns buf).1,
         [Event.allocEv (calc_bytes_per_sample format * ns) true,
          Event.interleaveEv (gw.interleave txlay format ns buf).1,
          Event.freeEv])
      else
        test_meta gw rxlay format ns (calc_metadata_bytes format)
          (calc_bytes_per_sample format * ns) (calc_bytes_per_sample format)
          (calc_num_channels rxlay)
          [Event.allocEv (calc_bytes_per_sample format * ns) true,
           Event.interleaveEv (gw.interleave txlay format ns buf).1]
          (gw.interleave txlay format ns buf).2

/-- The fixed sample count of the four test cases in `main`. -/
def NUM_SAMPLES : Nat := 16384

/-- Status of the `k`-th of the four fixed test cases run by `main`
(single- and two-channel, plain and metadata format, 16384 samples). -/
def caseStatus (gw : Gateway) (junk : Nat → Nat) (allocOk : Bool) : Nat → Int
  | 0 => (test gw junk allocOk .rx1 .tx1 .sc16q11 NUM_SAMPLES).1
  | 1 => (test gw junk allocOk .rx1 .tx1 .sc16q11meta NUM_SAMPLES).1
  | 2 => (test gw junk allocOk .rx2 .tx2 .sc16q11 NUM_SAMPLES).1
  | 3 => (test gw junk allocOk .rx2 .tx2 .sc16q11meta NUM_SAMPLES).1
  | _ => 0

/-- Function `main` from main.c: run the four fixed test cases in order, stopping as
soon as one returns a negative status; the result is the exit status
together with the number of cases that were run. -/
def main_run (gw : Gateway) (junk : Nat → Nat) (allocOk : Bool) : Int × Nat :=
  if caseStatus gw junk allocOk 0 < 0 then (caseStatus gw junk allocOk 0, 1)
  else if caseStatus gw junk allocOk 1 < 0 then (caseStatus gw junk allocOk 1, 2)
  else if caseStatus gw junk allocOk 2 < 0 then (caseStatus gw junk allocOk 2, 3)
  else (caseStatus gw junk allocOk 3, 4)

/-- A gateway whose transforms leave the buffer unchanged and succeed. -/
def idGateway : Gateway :=
  ⟨fun _ _ _ b => (0, b), fun _ _ _ b => (0, b)⟩

/-- A gateway whose transforms always fail with status `-3`. -/
def failGateway : Gateway :=
  ⟨fun _ _ _ b => (-3, b), fun _ _ _ b => (-3, b)⟩

/-- A gateway whose interleave succeeds but whose deinterleave fails. -/
def deinFailGateway : Gateway :=
  ⟨fun _ _ _ b => (0, b), fun _ _ _ b => (-5, b)⟩

def isFree : Event → Bool
  | .freeEv => true
  | _ => false

def isVerifEvent : Event → Bool
  | .checkMeta _ _ _ _ _ => true
  | .checkNoop _ _ _ _ _ => true
  | .checkChan _ _ _ _ _ _ _ => true
  | .checkFinal _ _ _ _ _ => true
  | _ => false

def isFinalCheck : Event → Bool
  | .checkFinal _ _ _ _ _ => true
  | _ => false

/-- Every event the per-channel loop emits is a `checkChan` event for some
channel in range, carrying exactly the parameters `test` computes for that
channel. -/
theorem chan_loop_events (mem : Nat → Nat)
    (offset bytes samplesize num_chan : Nat) :
    ∀ r i, ∀ e ∈ (chan_loop mem offset bytes samplesize num_chan i r).2,
      ∃ i' ok, i ≤ i' ∧ i' < i + r ∧
        e = Event.checkChan i' (offset + samplesize * i') (bytes - offset)
              samplesize num_chan
              (startval offset (bytes - offset) num_chan i') ok
  | 0, i => by simp [chan_loop]
  | r + 1, i => by
    intro e he
    unfold chan_loop at he
    split at he
    · rcases List.mem_cons.mp he with h | h
      · exact ⟨i, true, le_refl i, by omega, h⟩
      · obtain ⟨i', ok, h1, h2, h3⟩ :=
          chan_loop_events mem offset bytes samplesize num_chan r (i + 1) e h
        exact ⟨i', ok, by omega, by omega, h3⟩
    · rcases List.mem_singleton.mp he with h
      exact ⟨i, false, le_refl i, by omega, h⟩

theorem chan_loop_countP_isFree (mem : Nat → Nat)
    (offset bytes samplesize num_chan r i : Nat) :
    ((chan_loop mem offset bytes samplesize num_chan i r).2.countP isFree) = 0 := by
  rw [List.countP_eq_zero]
  intro e he
  obtain ⟨i', ok, _, _, h3⟩ :=
    chan_loop_events mem offset bytes samplesize num_chan r i e he
  rw [h3]
  simp [isFree]

theorem chan_loop_countP_isFinalCheck (mem : Nat → Nat)
    (offset bytes samplesize num_chan r i : Nat) :
    ((chan_loop mem offset bytes samplesize num_chan i r).2.countP isFinalCheck) = 0 := by
  rw [List.countP_eq_zero]
  intro e he
  obtain ⟨i', ok, _, _, h3⟩ :=
    chan_loop_events mem offset bytes samplesize num_chan r i e he
  rw [h3]
  simp [isFinalCheck]

theorem chan_loop_not_interleaveEv (mem : Nat → Nat)
    (offset bytes samplesize num_chan r i : Nat) (st : Int) :
    Event.interleaveEv st ∉ (chan_loop mem offset bytes samplesize num_chan i r).2 := by
  intro he
  obtain ⟨i', ok, _, _, h3⟩ :=
    chan_loop_events mem offset bytes samplesize num_chan r i _ he
  simp at h3

theorem chan_loop_not_deinterleaveEv (mem : Nat → Nat)
    (offset bytes samplesize num_chan r i : Nat) (st : Int) :
    Event.deinterleaveEv st ∉ (chan_loop mem offset bytes samplesize num_chan i r).2 := by
  intro he
  obtain ⟨i', ok, _, _, h3⟩ :=
    chan_loop_events mem offset bytes samplesize num_chan r i _ he
  simp at h3

/-- Claim C6: a test case whose receive and transmit channel counts differ,
or whose total byte count is below the metadata byte count, or whose channel
count is below 1, fails with status `-1` before any buffer is generated: no
allocation is attempted (the event trace is empty). -/
theorem invalid_case_rejected (gw : Gateway) (junk : Nat → Nat) (allocOk : Bool)
    (rxlay txlay : Layout) (format : Format) (ns : Nat)
    (h : calc_num_channels rxlay ≠ calc_num_channels txlay ∨
         calc_bytes_per_sample format * ns < calc_metadata_bytes format ∨
         calc_num_channels rxlay < 1) :
    test gw junk allocOk rxlay txlay format ns = (-1, []) := by
  simp only [test]
  by_cases h1 : calc_num_channels rxlay ≠ calc_num_channels txlay
  · rw [if_pos h1]
  · rw [if_neg h1]
    by_cases h2 : calc_bytes_per_sample format * ns < calc_metadata_bytes format
    · rw [if_pos h2]
    · rw [if_neg h2]
      have h3 : calc_num_channels rxlay < 1 := by tauto
      rw [if_pos h3]

theorem invalid_case_rejected_witness :
    (calc_num_channels .rx1 ≠ calc_num_channels .tx2 ∨
      calc_bytes_per_sample .sc16q11 * 5 < calc_metadata_bytes .sc16q11 ∨
      calc_num_channels .rx1 < 1) ∧
    test idGateway (fun _ => 0) true .rx1 .tx2 .sc16q11 5 = (-1, []) :=
  ⟨by decide, invalid_case_rejected idGateway (fun _ => 0) true .rx1 .tx2
    .sc16q11 5 (by decide)⟩

theorem metaEvs_countP_isFree (buf1 : Nat → Nat) (offset samplesize : Nat) :
    (metaEvs buf1 offset samplesize).countP isFree = 0 := by
  unfold metaEvs
  split <;> simp [isFree]

theorem noopEvs_countP_isFree (buf1 : Nat → Nat) (bytes samplesize num_chan : Nat) :
    (noopEvs buf1 bytes samplesize num_chan).countP isFree = 0 := by
  unfold noopEvs
  split <;> simp [isFree]

theorem metaEvs_countP_isFinalCheck (buf1 : Nat → Nat) (offset samplesize : Nat) :
    (metaEvs buf1 offset samplesize).countP isFinalCheck = 0 := by
  unfold metaEvs
  split <;> simp [isFinalCheck]

theorem noopEvs_countP_isFinalCheck (buf1 : Nat → Nat)
    (bytes samplesize num_chan : Nat) :
    (noopEvs buf1 bytes samplesize num_chan).countP isFinalCheck = 0 := by
  unfold noopEvs
  split <;> simp [isFinalCheck]

/-- Every event of the metadata-check stage is its `checkMeta` event. -/
theorem metaEvs_mem (buf1 : Nat → Nat) (offset samplesize : Nat) (e : Event)
    (he : e ∈ metaEvs buf1 offset samplesize) :
    ∃ ok, e = Event.checkMeta offset samplesize 1 0 ok := by
  unfold metaEvs at he
  split at he
  · exact ⟨_, List.mem_singleton.mp he⟩
  · simp at he

/-- Every event of the no-op-check stage is its `checkNoop` event. -/
theorem noopEvs_mem (buf1 : Nat → Nat) (bytes samplesize num_chan : Nat) (e : Event)
    (he : e ∈ noopEvs buf1 bytes samplesize num_chan) :
    ∃ ok, e = Event.checkNoop bytes samplesize 1 0 ok := by
  unfold noopEvs at he
  split at he
  · exact ⟨_, List.mem_singleton.mp he⟩
  · simp at he

theorem test_dein_countP_isFree (gw : Gateway) (rxlay : Layout) (format : Format)
    (ns bytes samplesize : Nat) (pre : List Event) (buf1 : Nat → Nat) :
    (test_dein gw rxlay format ns bytes samplesize pre buf1).2.countP isFree =
      pre.countP isFree + 1 := by
  unfold test_dein
  split <;> simp [isFree, List.countP_append, List.countP_cons]

theorem test_chan_countP_isFree (gw : Gateway) (rxlay : Layout) (format : Format)
    (ns offset bytes samplesize num_chan : Nat) (pre : List Event)
    (buf1 : Nat → Nat) :
    (test_chan gw rxlay format ns offset bytes samplesize num_chan pre buf1).2.countP
        isFree = pre.countP isFree + 1 := by
  unfold test_chan
  split
  · simp [isFree, List.countP_append, List.countP_cons, chan_loop_countP_isFree]
  · rw [test_dein_countP_isFree]
    simp [List.countP_append, chan_loop_countP_isFree]

theorem test_noop_countP_isFree (gw : Gateway) (rxlay : Layout) (format : Format)
    (ns offset bytes samplesize num_chan : Nat) (pre : List Event)
    (buf1 : Nat → Nat) :
    (test_noop gw rxlay format ns offset bytes samplesize num_chan pre buf1).2.countP
        isFree = pre.countP isFree + 1 := by
  unfold test_noop
  split
  · simp [isFree, List.countP_append, List.countP_cons, noopEvs_countP_isFree]
  · rw [test_chan_countP_isFree]
    simp [List.countP_append, noopEvs_countP_isFree]

theorem test_meta_countP_isFree (gw : Gateway) (rxlay : Layout) (format : Format)
    (ns offset bytes samplesize num_chan : Nat) (pre : List Event)
    (buf1 : Nat → Nat) :
    (test_meta gw rxlay format ns offset bytes samplesize num_chan pre buf1).2.countP
        isFree = pre.countP isFree + 1 := by
  unfold test_meta
  split
  · simp [isFree, List.countP_append, List.countP_cons, metaEvs_countP_isFree]
  · rw [test_noop_countP_isFree]
    simp [List.countP_append, metaEvs_countP_isFree]

/-- Claim C9: whenever a test case's buffer generation succeeds (a
successful allocation event is in the trace), `test` releases the buffer
exactly once before returning, on every execution path. -/
theorem buffer_released_once (gw : Gateway) (junk : Nat → Nat) (allocOk : Bool)
    (rxlay txlay : Layout) (format : Format) (ns b : Nat)
    (h : Event.allocEv b true ∈ (test gw junk allocOk rxlay txlay format ns).2) :
    (test gw junk allocOk rxlay txlay format ns).2.countP isFree = 1 := by
  rcases hE : test gw junk allocOk rxlay txlay format ns with ⟨status, tr⟩
  rw [hE] at h
  replace h : Event.allocEv b true ∈ tr := h
  show tr.countP isFree = 1
  simp only [test] at hE
  split at hE
  · injection hE with h1 h2; subst h2; simp at h
  · split at hE
    · injection hE with h1 h2; subst h2; simp at h
    · split at hE
      · injection hE with h1 h2; subst h2; simp at h
      · split at hE
        · injection hE with h1 h2; subst h2; simp at h
        · split at hE
          · injection hE with h1 h2; subst h2
            simp [List.countP_cons, isFree]
          · replace hE := congrArg Prod.snd hE
            simp only at hE
            rw [← hE, test_meta_countP_isFree]
            simp [List.countP_cons, isFree]

theorem buffer_released_once_witness :
    Event.allocEv 16 true ∈ (test idGateway (fun _ => 0) true .rx1 .tx1
        .sc16q11 4).2 ∧
      (test idGateway (fun _ => 0) true .rx1 .tx1 .sc16q11 4).2.countP isFree = 1 :=
  ⟨by decide, buffer_released_once idGateway (fun _ => 0) true .rx1 .tx1
    .sc16q11 4 16 (by decide)⟩

theorem not_mem_metaEvs_deinEv (buf1 : Nat → Nat) (offset samplesize : Nat)
    (st : Int) : Event.deinterleaveEv st ∉ metaEvs buf1 offset samplesize :=
  fun h => by obtain ⟨ok, hh⟩ := metaEvs_mem _ _ _ _ h; simp at hh

theorem not_mem_noopEvs_deinEv (buf1 : Nat → Nat) (bytes samplesize num_chan : Nat)
    (st : Int) : Event.deinterleaveEv st ∉ noopEvs buf1 bytes samplesize num_chan :=
  fun h => by obtain ⟨ok, hh⟩ := noopEvs_mem _ _ _ _ _ h; simp at hh

theorem not_mem_metaEvs_interEv (buf1 : Nat → Nat) (offset samplesize : Nat)
    (st : Int) : Event.interleaveEv st ∉ metaEvs buf1 offset samplesize :=
  fun h => by obtain ⟨ok, hh⟩ := metaEvs_mem _ _ _ _ h; simp at hh

theorem not_mem_noopEvs_interEv (buf1 : Nat → Nat) (bytes samplesize num_chan : Nat)
    (st : Int) : Event.interleaveEv st ∉ noopEvs buf1 bytes samplesize num_chan :=
  fun h => by obtain ⟨ok, hh⟩ := noopEvs_mem _ _ _ _ _ h; simp at hh

theorem not_mem_metaEvs_checkChan (buf1 : Nat → Nat) (offset samplesize : Nat)
    (i base buflen ss stride sv : Nat) (ok : Bool) :
    Event.checkChan i base buflen ss stride sv ok ∉ metaEvs buf1 offset samplesize :=
  fun h => by obtain ⟨ok', hh⟩ := metaEvs_mem _ _ _ _ h; simp at hh

theorem not_mem_noopEvs_checkChan (buf1 : Nat → Nat)
    (bytes samplesize num_chan : Nat) (i base buflen ss stride sv : Nat)
    (ok : Bool) :
    Event.checkChan i base buflen ss stride sv ok ∉
      noopEvs buf1 bytes samplesize num_chan :=
  fun h => by obtain ⟨ok', hh⟩ := noopEvs_mem _ _ _ _ _ h; simp at hh

/-- A `checkChan` event of the top-level per-channel loop carries exactly
the parameters `test` computes: base `offset + samplesize * i`, region
`bytes - offset`, stride `num_chan`, in-range channel index, and the
per-channel start value. -/
theorem chan_mem_params (buf1 : Nat → Nat) (offset bytes samplesize num_chan : Nat)
    (i base buflen ss stride sv : Nat) (ok : Bool)
    (he : Event.checkChan i base buflen ss stride sv ok ∈
      (chan_loop buf1 offset bytes samplesize num_chan 0 num_chan).2) :
    base = offset + samplesize * i ∧ buflen = bytes - offset ∧ ss = samplesize ∧
      stride = num_chan ∧ i < num_chan ∧
      sv = startval offset (bytes - offset) num_chan i := by
  obtain ⟨i', ok', h1, h2, h3⟩ :=
    chan_loop_events buf1 offset bytes samplesize num_chan num_chan 0 _ he
  rw [Event.checkChan.injEq] at h3
  obtain ⟨hi, hb, hl, hs, hst, hsv, hok⟩ := h3
  subst hi
  exact ⟨hb, hl, hs, hst, by omega, hsv⟩

theorem test_dein_mem_checkChan (gw : Gateway) (rxlay : Layout) (format : Format)
    (ns bytes samplesize : Nat) (pre : List Event) (buf1 : Nat → Nat)
    (i base buflen ss stride sv : Nat) (ok : Bool)
    (he : Event.checkChan i base buflen ss stride sv ok ∈
      (test_dein gw rxlay format ns bytes samplesize pre buf1).2) :
    Event.checkChan i base buflen ss stride sv ok ∈ pre := by
  unfold test_dein at he
  split at he <;> simp_all

theorem test_chan_mem_checkChan (gw : Gateway) (rxlay : Layout) (format : Format)
    (ns offset bytes samplesize num_chan : Nat) (pre : List Event)
    (buf1 : Nat → Nat) (i base buflen ss stride sv : Nat) (ok : Bool)
    (he : Event.checkChan i base buflen ss stride sv ok ∈
      (test_chan gw rxlay format ns offset bytes samplesize num_chan pre buf1).2) :
    Event.checkChan i base buflen ss stride sv ok ∈ pre ∨
      (base = offset + samplesize * i ∧ buflen = bytes - offset ∧
        ss = samplesize ∧ stride = num_chan ∧ i < num_chan ∧
        sv = startval offset (bytes - offset) num_chan i) := by
  unfold test_chan at he
  split at he
  · simp only [List.mem_append, List.mem_cons, List.not_mem_nil, or_false] at he
    rcases he with (he | he) | he
    · exact Or.inl he
    · exact Or.inr (chan_mem_params buf1 offset bytes samplesize num_chan
        i base buflen ss stride sv ok he)
    · simp at he
  · have h := test_dein_mem_checkChan gw rxlay format ns bytes samplesize _ buf1
      i base buflen ss stride sv ok he
    rcases List.mem_append.mp h with h | h
    · exact Or.inl h
    · exact Or.inr (chan_mem_params buf1 offset bytes samplesize num_chan
        i base buflen ss stride sv ok h)

theorem test_noop_mem_checkChan (gw : Gateway) (rxlay : Layout) (format : Format)
    (ns offset bytes samplesize num_chan : Nat) (pre : List Event)
    (buf1 : Nat → Nat) (i base buflen ss stride sv : Nat) (ok : Bool)
    (he : Event.checkChan i base buflen ss stride sv ok ∈
      (test_noop gw rxlay format ns offset bytes samplesize num_chan pre buf1).2) :
    Event.checkChan i base buflen ss stride sv ok ∈ pre ∨
      (base = offset + samplesize * i ∧ buflen = bytes - offset ∧
        ss = samplesize ∧ stride = num_chan ∧ i < num_chan ∧
        sv = startval offset (bytes - offset) num_chan i) := by
  unfold test_noop at he
  split at he
  · simp only [List.mem_append, List.mem_cons, List.not_mem_nil, or_false] at he
    rcases he with (he | he) | he
    · exact Or.inl he
    · exact absurd he (not_mem_noopEvs_checkChan _ _ _ _ _ _ _ _ _ _ _)
    · simp at he
  · have h := test_chan_mem_checkChan gw rxlay format ns offset bytes samplesize
      num_chan _ buf1 i base buflen ss stride sv ok he
    rcases h with h | h
    · rcases List.mem_append.mp h with h | h
      · exact Or.inl h
      · exact absurd h (not_mem_noopEvs_checkChan _ _ _ _ _ _ _ _ _ _ _)
    · exact Or.inr h

theorem test_meta_mem_checkChan (gw : Gateway) (rxlay : Layout) (format : Format)
    (ns offset bytes samplesize num_chan : Nat) (pre : List Event)
    (buf1 : Nat → Nat) (i base buflen ss stride sv : Nat) (ok : Bool)
    (he : Event.checkChan i base buflen ss stride sv ok ∈
      (test_meta gw rxlay format ns offset bytes samplesize num_chan pre buf1).2) :
    Event.checkChan i base buflen ss stride sv ok ∈ pre ∨
      (base = offset + samplesize * i ∧ buflen = bytes - offset ∧
        ss = samplesize ∧ stride = num_chan ∧ i < num_chan ∧
        sv = startval offset (bytes - offset) num_chan i) := by
  unfold test_meta at he
  split at he
  · simp only [List.mem_append, List.mem_cons, List.not_mem_nil, or_false] at he
    rcases he with (he | he) | he
    · exact Or.inl he
    · exact absurd he (not_mem_metaEvs_checkChan _ _ _ _ _ _ _ _ _ _)
    · simp at he
  · have h := test_noop_mem_checkChan gw rxlay format ns offset bytes samplesize
      num_chan _ buf1 i base buflen ss stride sv ok he
    rcases h with h | h
    · rcases List.mem_append.mp h with h | h
      · exact Or.inl h
      · exact absurd h (not_mem_metaEvs_checkChan _ _ _ _ _ _ _ _ _ _)
    · exact Or.inr h

/-- Claim C2: every per-channel verification `test` performs on channel `i`
starts at byte offset `metaBytes + i * samplesize`, covers the data region
of `totalBytes - metaBytes` bytes, uses the channel count as stride, and
starts its count at `((metaBytes + i * (dataBytes / N)) / 2) % 65536`;
concretely, with 4-byte samples, no metadata, two channels and 16384
samples (65536 bytes), channel 0 starts at count 0 and channel 1 at count
16384. -/
theorem per_channel_check_params (gw : Gateway) (junk : Nat → Nat)
    (allocOk : Bool) (rxlay txlay : Layout) (format : Format) (ns : Nat)
    (i base buflen ss stride sv : Nat) (ok : Bool)
    (h : Event.checkChan i base buflen ss stride sv ok ∈
      (test gw junk allocOk rxlay txlay format ns).2) :
    (base = calc_metadata_bytes format + calc_bytes_per_sample format * i ∧
      buflen = calc_bytes_per_sample format * ns - calc_metadata_bytes format ∧
      ss = calc_bytes_per_sample format ∧
      stride = calc_num_channels rxlay ∧
      i < calc_num_channels rxlay ∧
      sv = startval (calc_metadata_bytes format)
        (calc_bytes_per_sample format * ns - calc_metadata_bytes format)
        (calc_num_channels rxlay) i) ∧
    startval 0 65536 2 0 = 0 ∧ startval 0 65536 2 1 = 16384 := by
  refine ⟨?_, by decide, by decide⟩
  rcases hE : test gw junk allocOk rxlay txlay format ns with ⟨status, tr⟩
  rw [hE] at h
  replace h : Event.checkChan i base buflen ss stride sv ok ∈ tr := h
  simp only [test] at hE
  split at hE
  · injection hE with h1 h2; subst h2; simp at h
  · split at hE
    · injection hE with h1 h2; subst h2; simp at h
    · split at hE
      · injection hE with h1 h2; subst h2; simp at h
      · split at hE
        · injection hE with h1 h2; subst h2; simp at h
        · split at hE
          · injection hE with h1 h2; subst h2; simp at h
          · replace hE := congrArg Prod.snd hE
            simp only at hE
            rw [← hE] at h
            have hc := test_meta_mem_checkChan gw rxlay format ns
              (calc_metadata_bytes format) (calc_bytes_per_sample format * ns)
              (calc_bytes_per_sample format) (calc_num_channels rxlay) _ _
              i base buflen ss stride sv ok h
            rcases hc with hc | hc
            · simp at hc
            · exact hc

theorem per_channel_check_params_witness :
    Event.checkChan 0 0 16 4 1 0 true ∈
        (test idGateway (fun _ => 0) true .rx1 .tx1 .sc16q11 4).2 ∧
      ((0 = calc_metadata_bytes .sc16q11 + calc_bytes_per_sample .sc16q11 * 0 ∧
        16 = calc_bytes_per_sample .sc16q11 * 4 - calc_metadata_bytes .sc16q11 ∧
        4 = calc_bytes_per_sample .sc16q11 ∧
        1 = calc_num_channels .rx1 ∧
        0 < calc_num_channels .rx1 ∧
        0 = startval (calc_metadata_bytes .sc16q11)
          (calc_bytes_per_sample .sc16q11 * 4 - calc_metadata_bytes .sc16q11)
          (calc_num_channels .rx1) 0) ∧
      startval 0 65536 2 0 = 0 ∧ startval 0 65536 2 1 = 16384) :=
  ⟨by decide, per_channel_check_params idGateway (fun _ => 0) true .rx1 .tx1
    .sc16q11 4 0 0 16 4 1 0 true (by decide)⟩

theorem test_dein_mem_interEv (gw : Gateway) (rxlay : Layout) (format : Format)
    (ns bytes samplesize : Nat) (pre : List Event) (buf1 : Nat → Nat) (st : Int)
    (he : Event.interleaveEv st ∈
      (test_dein gw rxlay format ns bytes samplesize pre buf1).2) :
    Event.interleaveEv st ∈ pre := by
  unfold test_dein at he
  split at he <;> simp_all

theorem test_chan_mem_interEv (gw : Gateway) (rxlay : Layout) (format : Format)
    (ns offset bytes samplesize num_chan : Nat) (pre : List Event)
    (buf1 : Nat → Nat) (st : Int)
    (he : Event.interleaveEv st ∈
      (test_chan gw rxlay format ns offset bytes samplesize num_chan pre buf1).2) :
    Event.interleaveEv st ∈ pre := by
  unfold test_chan at he
  split at he
  · simp only [List.mem_append, List.mem_cons, List.not_mem_nil, or_false] at he
    rcases he with (he | he) | he
    · exact he
    · exact absurd he (chan_loop_not_interleaveEv _ _ _ _ _ _ _ _)
    · simp at he
  · have h := test_dein_mem_interEv gw rxlay format ns bytes samplesize _ buf1 st he
    rcases List.mem_append.mp h with h | h
    · exact h
    · exact absurd h (chan_loop_not_interleaveEv _ _ _ _ _ _ _ _)

theorem test_noop_mem_interEv (gw : Gateway) (rxlay : Layout) (format : Format)
    (ns offset bytes samplesize num_chan : Nat) (pre : List Event)
    (buf1 : Nat → Nat) (st : Int)
    (he : Event.interleaveEv st ∈
      (test_noop gw rxlay format ns offset bytes samplesize num_chan pre buf1).2) :
    Event.interleaveEv st ∈ pre := by
  unfold test_noop at he
  split at he
  · simp only [List.mem_append, List.mem_cons, List.not_mem_nil, or_false] at he
    rcases he with (he | he) | he
    · exact he
    · exact absurd he (not_mem_noopEvs_interEv _ _ _ _ _)
    · simp at he
  · have h := test_chan_mem_interEv gw rxlay format ns offset bytes samplesize
      num_chan _ buf1 st he
    rcases List.mem_append.mp h with h | h
    · exact h
    · exact absurd h (not_mem_noopEvs_interEv _ _ _ _ _)

theorem test_meta_mem_interEv (gw : Gateway) (rxlay : Layout) (format : Format)
    (ns offset bytes samplesize num_chan : Nat) (pre : List Event)
    (buf1 : Nat → Nat) (st : Int)
    (he : Event.interleaveEv st ∈
      (test_meta gw rxlay format ns offset bytes samplesize num_chan pre buf1).2) :
    Event.interleaveEv st ∈ pre := by
  unfold test_meta at he
  split at he
  · simp only [List.mem_append, List.mem_cons, List.not_mem_nil, or_false] at he
    rcases he with (he | he) | he
    · exact he
    · exact absurd he (not_mem_metaEvs_interEv _ _ _ _)
    · simp at he
  · have h := test_noop_mem_interEv gw rxlay format ns offset bytes samplesize
      num_chan _ buf1 st he
    rcases List.mem_append.mp h with h | h
    · exact h
    · exact absurd h (not_mem_metaEvs_interEv _ _ _ _)

/-- After a failing deinterleave call, the stage returns that status, skips
the final verification, and still frees the buffer once. -/
theorem test_dein_deinEv (gw : Gateway) (rxlay : Layout) (format : Format)
    (ns bytes samplesize : Nat) (pre : List Event) (buf1 : Nat → Nat) (st : Int)
    (hst : st ≠ 0)
    (he : Event.deinterleaveEv st ∈
      (test_dein gw rxlay format ns bytes samplesize pre buf1).2)
    (hpre : Event.deinterleaveEv st ∉ pre) :
    (test_dein gw rxlay format ns bytes samplesize pre buf1).1 = st ∧
    (test_dein gw rxlay format ns bytes samplesize pre buf1).2.countP
        isFinalCheck = pre.countP isFinalCheck ∧
    (test_dein gw rxlay format ns bytes samplesize pre buf1).2.countP
        isFree = pre.countP isFree + 1 := by
  unfold test_dein at he ⊢
  by_cases hc : (gw.deinterleave rxlay format ns buf1).1 ≠ 0
  · rw [if_pos hc] at he ⊢
    simp only [List.mem_append, List.mem_cons, List.not_mem_nil, or_false,
      Event.deinterleaveEv.injEq] at he
    rcases he with he | he | he
    · exact absurd he hpre
    · exact ⟨he.symm, by simp [List.countP_append, List.countP_cons, isFinalCheck],
        by simp [List.countP_append, List.countP_cons, isFree]⟩
    · simp at he
  · rw [if_neg hc] at he ⊢
    push_neg at hc
    simp only [List.mem_append, List.mem_cons, List.not_mem_nil, or_false,
      Event.deinterleaveEv.injEq] at he
    rcases he with he | he | he
    · exact absurd he hpre
    · exact absurd (he.trans hc) hst
    · simp at he

theorem test_chan_deinEv (gw : Gateway) (rxlay : Layout) (format : Format)
    (ns offset bytes samplesize num_chan : Nat) (pre : List Event)
    (buf1 : Nat → Nat) (st : Int) (hst : st ≠ 0)
    (he : Event.deinterleaveEv st ∈
      (test_chan gw rxlay format ns offset bytes samplesize num_chan pre buf1).2)
    (hpre : Event.deinterleaveEv st ∉ pre) :
    (test_chan gw rxlay format ns offset bytes samplesize num_chan pre buf1).1 = st ∧
    (test_chan gw rxlay format ns offset bytes samplesize num_chan pre buf1).2.countP
        isFinalCheck = pre.countP isFinalCheck ∧
    (test_chan gw rxlay format ns offset bytes samplesize num_chan pre buf1).2.countP
        isFree = pre.countP isFree + 1 := by
  unfold test_chan at he ⊢
  by_cases hc : (chan_loop buf1 offset bytes samplesize num_chan 0 num_chan).1 = false
  · rw [if_pos hc] at he
    exfalso
    simp only [List.mem_append, List.mem_cons, List.not_mem_nil, or_false] at he
    rcases he with (he | he) | he
    · exact hpre he
    · exact chan_loop_not_deinterleaveEv _ _ _ _ _ _ _ _ he
    · simp at he
  · rw [if_neg hc] at he ⊢
    have hpre2 : Event.deinterleaveEv st ∉
        pre ++ (chan_loop buf1 offset bytes samplesize num_chan 0 num_chan).2 := by
      intro hmem
      rcases List.mem_append.mp hmem with hmem | hmem
      · exact hpre hmem
      · exact chan_loop_not_deinterleaveEv _ _ _ _ _ _ _ _ hmem
    obtain ⟨h1, h2, h3⟩ := test_dein_deinEv gw rxlay format ns bytes samplesize
      _ buf1 st hst he hpre2
    refine ⟨h1, ?_, ?_⟩
    · rw [h2]
      simp [List.countP_append, chan_loop_countP_isFinalCheck]
    · rw [h3]
      simp [List.countP_append, chan_loop_countP_isFree]

theorem test_noop_deinEv (gw : Gateway) (rxlay : Layout) (format : Format)
    (ns offset bytes samplesize num_chan : Nat) (pre : List Event)
    (buf1 : Nat → Nat) (st : Int) (hst : st ≠ 0)
    (he : Event.deinterleaveEv st ∈
      (test_noop gw rxlay format ns offset bytes samplesize num_chan pre buf1).2)
    (hpre : Event.deinterleaveEv st ∉ pre) :
    (test_noop gw rxlay format ns offset bytes samplesize num_chan pre buf1).1 = st ∧
    (test_noop gw rxlay format ns offset bytes samplesize num_chan pre buf1).2.countP
        isFinalCheck = pre.countP isFinalCheck ∧
    (test_noop gw rxlay format ns offset bytes samplesize num_chan pre buf1).2.countP
        isFree = pre.countP isFree + 1 := by
  unfold test_noop at he ⊢
  by_cases hc : num_chan = 1 ∧
      check_buf (some buf1) bytes samplesize 1 0 = false
  · rw [if_pos hc] at he
    exfalso
    simp only [List.mem_append, List.mem_cons, List.not_mem_nil, or_false] at he
    rcases he with (he | he) | he
    · exact hpre he
    · exact not_mem_noopEvs_deinEv _ _ _ _ _ he
    · simp at he
  · rw [if_neg hc] at he ⊢
    have hpre2 : Event.deinterleaveEv st ∉
        pre ++ noopEvs buf1 bytes samplesize num_chan := by
      intro hmem
      rcases List.mem_append.mp hmem with hmem | hmem
      · exact hpre hmem
      · exact not_mem_noopEvs_deinEv _ _ _ _ _ hmem
    obtain ⟨h1, h2, h3⟩ := test_chan_deinEv gw rxlay format ns offset bytes
      samplesize num_chan _ buf1 st hst he hpre2
    refine ⟨h1, ?_, ?_⟩
    · rw [h2]
      simp [List.countP_append, noopEvs_countP_isFinalCheck]
    · rw [h3]
      simp [List.countP_append, noopEvs_countP_isFree]

theorem test_meta_deinEv (gw : Gateway) (rxlay : Layout) (format : Format)
    (ns offset bytes samplesize num_chan : Nat) (pre : List Event)
    (buf1 : Nat → Nat) (st : Int) (hst : st ≠ 0)
    (he : Event.deinterleaveEv st ∈
      (test_meta gw rxlay format ns offset bytes samplesize num_chan pre buf1).2)
    (hpre : Event.deinterleaveEv st ∉ pre) :
    (test_meta gw rxlay format ns offset bytes samplesize num_chan pre buf1).1 = st ∧
    (test_meta gw rxlay format ns offset bytes samplesize num_chan pre buf1).2.countP
        isFinalCheck = pre.countP isFinalCheck ∧
    (test_meta gw rxlay format ns offset bytes samplesize num_chan pre buf1).2.countP
        isFree = pre.countP isFree + 1 := by
  unfold test_meta at he ⊢
  by_cases hc : 0 < offset ∧
      check_buf (some buf1) offset samplesize 1 0 = false
  · rw [if_pos hc] at he
    exfalso
    simp only [List.mem_append, List.mem_cons, List.not_mem_nil, or_false] at he
    rcases he with (he | he) | he
    · exact hpre he
    · exact not_mem_metaEvs_deinEv _ _ _ _ he
    · simp at he
  · rw [if_neg hc] at he ⊢
    have hpre2 : Event.deinterleaveEv st ∉ pre ++ metaEvs buf1 offset samplesize := by
      intro hmem
      rcases List.mem_append.mp hmem with hmem | hmem
      · exact hpre hmem
      · exact not_mem_metaEvs_deinEv _ _ _ _ hmem
    obtain ⟨h1, h2, h3⟩ := test_noop_deinEv gw rxlay format ns offset bytes
      samplesize num_chan _ buf1 st hst he hpre2
    refine ⟨h1, ?_, ?_⟩
    · rw [h2]
      simp [List.countP_append, metaEvs_countP_isFinalCheck]
    · rw [h3]
      simp [List.countP_append, metaEvs_countP_isFree]

/-- Claim C7: whenever the interleave or deinterleave gateway call of a test
case returns a non-zero status, the case aborts at once: after a failing
interleave no verification at all is performed, after a failing
deinterleave the final verification is skipped, the buffer is released
exactly once, and the case's status is the failing transform's status. -/
theorem transform_failure_aborts (gw : Gateway) (junk : Nat → Nat)
    (allocOk : Bool) (rxlay txlay : Layout) (format : Format) (ns : Nat) :
    (∀ st : Int, st ≠ 0 →
      Event.interleaveEv st ∈ (test gw junk allocOk rxlay txlay format ns).2 →
        (test gw junk allocOk rxlay txlay format ns).1 = st ∧
        (test gw junk allocOk rxlay txlay format ns).2.countP isVerifEvent = 0 ∧
        (test gw junk allocOk rxlay txlay format ns).2.countP isFree = 1) ∧
    (∀ st : Int, st ≠ 0 →
      Event.deinterleaveEv st ∈ (test gw junk allocOk rxlay txlay format ns).2 →
        (test gw junk allocOk rxlay txlay format ns).1 = st ∧
        (test gw junk allocOk rxlay txlay format ns).2.countP isFinalCheck = 0 ∧
        (test gw junk allocOk rxlay txlay format ns).2.countP isFree = 1) := by
  rcases hE : test gw junk allocOk rxlay txlay format ns with ⟨status, tr⟩
  simp only [test] at hE
  split at hE
  · injection hE with h1 h2; subst h1; subst h2
    constructor <;> (intro st hst he; simp at he)
  · split at hE
    · injection hE with h1 h2; subst h1; subst h2
      constructor <;> (intro st hst he; simp at he)
    · split at hE
      · injection hE with h1 h2; subst h1; subst h2
        constructor <;> (intro st hst he; simp at he)
      · split at hE
        · injection hE with h1 h2; subst h1; subst h2
          constructor <;> (intro st hst he; simp at he)
        · split at hE
          · injection hE with h1 h2; subst h1; subst h2
            constructor
            · intro st hst he
              simp only [List.mem_cons, List.not_mem_nil, or_false,
                Event.interleaveEv.injEq] at he
              rcases he with he | he | he
              · simp at he
              · exact ⟨he.symm, by simp [List.countP_cons, isVerifEvent],
                  by simp [List.countP_cons, isFree]⟩
              · simp at he
            · intro st hst he
              simp at he
          · have hS := congrArg Prod.fst hE
            have hT := congrArg Prod.snd hE
            simp only at hS hT
            constructor
            · intro st hst he
              rw [← hT] at he
              have h := test_meta_mem_interEv gw rxlay format ns
                (calc_metadata_bytes format) (calc_bytes_per_sample format * ns)
                (calc_bytes_per_sample format) (calc_num_channels rxlay) _ _ st he
              simp only [List.mem_cons, List.not_mem_nil, or_false,
                Event.interleaveEv.injEq] at h
              rcases h with h | h
              · simp at h
              · simp_all
            · intro st hst he
              rw [← hT] at he
              obtain ⟨h1, h2, h3⟩ := test_meta_deinEv gw rxlay format ns
                (calc_metadata_bytes format) (calc_bytes_per_sample format * ns)
                (calc_bytes_per_sample format) (calc_num_channels rxlay) _ _
                st hst he (by simp)
              rw [← hS, ← hT]
              refine ⟨h1, ?_, ?_⟩
              · rw [h2]
                simp [List.countP_cons, isFinalCheck]
              · rw [h3]
                simp [List.countP_cons, isFree]

theorem transform_failure_aborts_witness :
    ((-3 : Int) ≠ 0 ∧
      Event.interleaveEv (-3) ∈
        (test failGateway (fun _ => 0) true .rx1 .tx1 .sc16q11 4).2) ∧
    ((test failGateway (fun _ => 0) true .rx1 .tx1 .sc16q11 4).1 = -3 ∧
      (test failGateway (fun _ => 0) true .rx1 .tx1
        .sc16q11 4).2.countP isVerifEvent = 0 ∧
      (test failGateway (fun _ => 0) true .rx1 .tx1
        .sc16q11 4).2.countP isFree = 1) :=
  ⟨⟨by decide, by decide⟩,
    (transform_failure_aborts failGateway (fun _ => 0) true .rx1 .tx1
      .sc16q11 4).1 (-3) (by decide) (by decide)⟩

theorem test_dein_status_nonpos (gw : Gateway) (rxlay : Layout) (format : Format)
    (ns bytes samplesize : Nat) (pre : List Event) (buf1 : Nat → Nat)
    (h : (gw.deinterleave rxlay format ns buf1).1 ≤ 0) :
    (test_dein gw rxlay format ns bytes samplesize pre buf1).1 ≤ 0 := by
  unfold test_dein
  split
  · exact h
  · split <;> norm_num

theorem test_chan_status_nonpos (gw : Gateway) (rxlay : Layout) (format : Format)
    (ns offset bytes samplesize num_chan : Nat) (pre : List Event)
    (buf1 : Nat → Nat)
    (h : (gw.deinterleave rxlay format ns buf1).1 ≤ 0) :
    (test_chan gw rxlay format ns offset bytes samplesize num_chan pre buf1).1 ≤ 0 := by
  unfold test_chan
  split
  · norm_num
  · exact test_dein_status_nonpos gw rxlay format ns bytes samplesize _ buf1 h

theorem test_noop_status_nonpos (gw : Gateway) (rxlay : Layout) (format : Format)
    (ns offset bytes samplesize num_chan : Nat) (pre : List Event)
    (buf1 : Nat → Nat)
    (h : (gw.deinterleave rxlay format ns buf1).1 ≤ 0) :
    (test_noop gw rxlay format ns offset bytes samplesize num_chan pre buf1).1 ≤ 0 := by
  unfold test_noop
  split
  · norm_num
  · exact test_chan_status_nonpos gw rxlay format ns offset bytes samplesize
      num_chan _ buf1 h

theorem test_meta_status_nonpos (gw : Gateway) (rxlay : Layout) (format : Format)
    (ns offset bytes samplesize num_chan : Nat) (pre : List Event)
    (buf1 : Nat → Nat)
    (h : (gw.deinterleave rxlay format ns buf1).1 ≤ 0) :
    (test_meta gw rxlay format ns offset bytes samplesize num_chan pre buf1).1 ≤ 0 := by
  unfold test_meta
  split
  · norm_num
  · exact test_noop_status_nonpos gw rxlay format ns offset bytes samplesize
      num_chan _ buf1 h

/-- Under the gateway contract (success is status 0, failure negative, never
positive), a test case never returns a positive status. -/
theorem test_status_nonpos (gw : Gateway) (junk : Nat → Nat) (allocOk : Bool)
    (rxlay txlay : Layout) (format : Format) (ns : Nat)
    (hgw : ∀ l f n b,
      (gw.interleave l f n b).1 ≤ 0 ∧ (gw.deinterleave l f n b).1 ≤ 0) :
    (test gw junk allocOk rxlay txlay format ns).1 ≤ 0 := by
  unfold test
  split
  · norm_num
  · split
    · norm_num
    · split
      · norm_num
      · split
        · norm_num
        · split
          · exact (hgw _ _ _ _).1
          · exact test_meta_status_nonpos gw rxlay format ns _ _ _ _ _ _
              (hgw _ _ _ _).2

/-- Claim C8: `main` runs its four fixed test cases (single- and
two-channel, plain and metadata format, 16384 samples) in order, stops at
the first case that does not complete its full sequence successfully
without running the remaining ones, and exits with the first failing case's
status, or with 0 when all four pass.  The hypothesis is the gateway
contract that transform statuses are never positive, under which a case
that does not pass is exactly a case with negative status. -/
theorem main_stops_at_first_failure (gw : Gateway) (junk : Nat → Nat)
    (allocOk : Bool)
    (hgw : ∀ l f n b,
      (gw.interleave l f n b).1 ≤ 0 ∧ (gw.deinterleave l f n b).1 ≤ 0) :
    (∀ i, i < 4 → caseStatus gw junk allocOk i ≤ 0) ∧
    ((∀ i, i < 4 → caseStatus gw junk allocOk i = 0) →
      main_run gw junk allocOk = (0, 4)) ∧
    (∀ k, k < 4 → caseStatus gw junk allocOk k < 0 →
      (∀ j, j < k → caseStatus gw junk allocOk j = 0) →
      main_run gw junk allocOk = (caseStatus gw junk allocOk k, k + 1)) := by
  have hle : ∀ i, i < 4 → caseStatus gw junk allocOk i ≤ 0 := by
    intro i hi
    interval_cases i <;>
      exact test_status_nonpos gw junk allocOk _ _ _ _ hgw
  refine ⟨hle, ?_, ?_⟩
  · intro hall
    unfold main_run
    rw [if_neg (by rw [hall 0 (by omega)]; omega),
        if_neg (by rw [hall 1 (by omega)]; omega),
        if_neg (by rw [hall 2 (by omega)]; omega),
        hall 3 (by omega)]
  · intro k hk hneg hprev
    interval_cases k
    · unfold main_run
      rw [if_pos hneg]
    · unfold main_run
      rw [if_neg (by rw [hprev 0 (by omega)]; omega), if_pos hneg]
    · unfold main_run
      rw [if_neg (by rw [hprev 0 (by omega)]; omega),
          if_neg (by rw [hprev 1 (by omega)]; omega), if_pos hneg]
    · unfold main_run
      rw [if_neg (by rw [hprev 0 (by omega)]; omega),
          if_neg (by rw [hprev 1 (by omega)]; omega),
          if_neg (by rw [hprev 2 (by omega)]; omega)]

theorem main_stops_at_first_failure_witness :
    (∀ (l : Layout) (f : Format) (n : Nat) (b : Nat → Nat),
        (idGateway.interleave l f n b).1 ≤ 0 ∧
        (idGateway.deinterleave l f n b).1 ≤ 0) ∧
    ((∀ i, i < 4 → caseStatus idGateway (fun _ => 0) true i ≤ 0) ∧
      ((∀ i, i < 4 → caseStatus idGateway (fun _ => 0) true i = 0) →
        main_run idGateway (fun _ => 0) true = (0, 4)) ∧
      (∀ k, k < 4 → caseStatus idGateway (fun _ => 0) true k < 0 →
        (∀ j, j < k → caseStatus idGateway (fun _ => 0) true j = 0) →
        main_run idGateway (fun _ => 0) true =
          (caseStatus idGateway (fun _ => 0) true k, k + 1))) :=
  ⟨fun _ _ _ _ => ⟨le_refl 0, le_refl 0⟩,
    main_stops_at_first_failure idGateway (fun _ => 0) true
      (fun _ _ _ _ => ⟨le_refl 0, le_refl 0⟩)⟩

end Interleaver
